import Mathlib

/-
Verification development for the quickbolt streaming/KV library.

The embedding models the latest revision of each source file (channel.go,
and the newer halves of read.go / write.go / database.go), plus the legacy
buffer.go Filter where a claim cites it.  Channels, goroutines and timers
are modelled by explicit event traces: each loop iteration of a stage is
driven by one event describing how the corresponding Go select resolved
(value received, channel closed, context cancelled, timer fired), and each
blocking send is driven by a boolean/oracle describing whether it completed
before its timeout.  bbolt is modelled as a sorted hierarchy of buckets
whose cursor yields entries in ascending key order; a cursor value of nil
(here: an Entry.bucket) marks a child bucket rather than a terminal value,
exactly as in bbolt's documented cursor contract.
-/

set_option autoImplicit false

namespace QB

/-! ## Byte strings and lexicographic order (bytes.Compare) -/

/-- Byte strings: keys, values and path segments, each byte a Nat. -/
abbrev ByteStr := List Nat

/-- Lexicographic strict order on byte strings, as used by bbolt to sort
keys (bytes.Compare a b < 0). -/
def lexLt : ByteStr → ByteStr → Bool
  | [], [] => false
  | [], _ :: _ => true
  | _ :: _, [] => false
  | a :: as, b :: bs => if a < b then true else if b < a then false else lexLt as bs

/-! ## The bbolt store model -/

/-- An entry of a bucket: either a terminal key/value pair (the cursor
reports a non-nil value) or a child bucket (the cursor reports a nil
value). -/
inductive Entry where
  | value (v : ByteStr)
  | bucket (entries : List (ByteStr × Entry))

/-- A bucket is its sorted list of entries, in ascending key order; the
cursor walks this list front to back. -/
abbrev Bucket := List (ByteStr × Entry)

/-- The database: none when the fixed root bucket has not been created yet
(fresh database), some root otherwise. -/
abbrev Store := Option Bucket

/-- First entry stored under the given key, if any. -/
def findEntry : Bucket → ByteStr → Option Entry
  | [], _ => none
  | (k, e) :: rest, key => if key = k then some e else findEntry rest key

/-- Model of bbolt Bucket.Bucket(name): the child bucket under the key, or
none when the key is absent or holds a terminal value. -/
def subBucket (b : Bucket) (k : ByteStr) : Option Bucket :=
  match findEntry b k with
  | some (Entry.bucket es) => some es
  | _ => none

/-- Model of bbolt Bucket.Get(key): the value under the key, or none when
the key is absent or names a child bucket. -/
def getVal (b : Bucket) (k : ByteStr) : Option ByteStr :=
  match findEntry b k with
  | some (Entry.value v) => some v
  | _ => none

/-- Sorted insert-or-replace of an entry, keeping ascending key order. -/
def putEntry : Bucket → ByteStr → Entry → Bucket
  | [], k, e => [(k, e)]
  | (k', e') :: rest, k, e =>
    if k = k' then (k, e) :: rest
    else if lexLt k k' then (k, e) :: (k', e') :: rest
    else (k', e') :: putEntry rest k e

/-- Removal of the entry under a key (no-op when absent). -/
def delEntry : Bucket → ByteStr → Bucket
  | [], _ => []
  | (k', e') :: rest, k => if k = k' then rest else (k', e') :: delEntry rest k

/-! ## Errors and results of database operations -/

/-- Error values of the read/write paths.  fmt.Errorf wrapping only
prepends message context around the cause, so the model carries the cause
itself: access/locate keep the data interpolated into the message (the
missing segment and the full path, or the key and path). -/
inductive DbErr where
  | access (seg : ByteStr) (path : List ByteStr)
  | locate (key : ByteStr) (path : List ByteStr)
  | incompatibleValue
  | keyRequired
  | bucketNameRequired
  | sendTimeout
deriving DecidableEq

/-- Outcome of an operation: a value, a returned error, or a Go runtime
panic (used for the out-of-bounds index in getBucket). -/
inductive Res (α : Type) where
  | ok (a : α)
  | err (e : DbErr)
  | panicked
deriving DecidableEq

/-! ## read.go: getBucket and getValue -/

/-- Loop of getBucket over the path segments (read.go): descend through
child buckets; a missing segment yields an Access error naming the segment
and the full path when mustExist, and a nil bucket otherwise. -/
def getBucketLoop (me : Bool) (full : List ByteStr) : Bucket → List ByteStr → Res (Option Bucket)
  | b, [] => Res.ok (some b)
  | b, p :: ps =>
    match subBucket b p with
    | some b' => getBucketLoop me full b' ps
    | none => if me then Res.err (DbErr.access p full) else Res.ok none

/-- getBucket (read.go): when the root bucket is absent and mustExist is
set, the code evaluates path[0] to build the Access error; on an empty
path that index is out of bounds and Go panics before any error value is
constructed. -/
def getBucket (store : Store) (path : List ByteStr) (me : Bool) : Res (Option Bucket) :=
  match store with
  | none =>
    if me then
      match path with
      | [] => Res.panicked
      | p :: ps => Res.err (DbErr.access p (p :: ps))
    else Res.ok none
  | some root => getBucketLoop me path root path

/-- getValue (read.go): navigate with getBucket; a nil bucket returns a nil
value with no error; a missing key under mustExist is a Locate error. -/
def getValue (store : Store) (key : ByteStr) (path : List ByteStr) (me : Bool) : Res (Option ByteStr) :=
  match getBucket store path me with
  | Res.panicked => Res.panicked
  | Res.err e => Res.err e
  | Res.ok none => Res.ok none
  | Res.ok (some b) =>
    match getVal b key with
    | some v => Res.ok (some v)
    | none => if me then Res.err (DbErr.locate key path) else Res.ok none

/-! ## write.go: getCreateBucket, insert, delete -/

/-- Combined model of getCreateBucket navigation followed by a mutation of
the target bucket (write.go): each path segment is created when missing
(CreateBucketIfNotExists), an empty segment name or a terminal value under
a segment is an error, and the rebuilt tree is returned. -/
def updateAt (f : Bucket → Except DbErr Bucket) : Bucket → List ByteStr → Except DbErr Bucket
  | b, [] => f b
  | b, p :: ps =>
    if p = [] then Except.error DbErr.bucketNameRequired
    else
      match findEntry b p with
      | some (Entry.value _) => Except.error DbErr.incompatibleValue
      | some (Entry.bucket sub) =>
        (updateAt f sub ps).map (fun sub' => putEntry b p (Entry.bucket sub'))
      | none =>
        (updateAt f [] ps).map (fun sub' => putEntry b p (Entry.bucket sub'))

/-- Model of bbolt Bucket.Put inside the insert transaction: an empty key
is rejected, a key naming a child bucket is incompatible, otherwise the
pair is stored (replacing any previous value). -/
def putKV (k v : ByteStr) (b : Bucket) : Except DbErr Bucket :=
  if k = [] then Except.error DbErr.keyRequired
  else
    match findEntry b k with
    | some (Entry.bucket _) => Except.error DbErr.incompatibleValue
    | _ => Except.ok (putEntry b k (Entry.value v))

/-- Model of bbolt Bucket.Delete inside the delete transaction: deleting a
key naming a child bucket is incompatible, otherwise the pair is removed
(a missing key is a successful no-op). -/
def delKV (k : ByteStr) (b : Bucket) : Except DbErr Bucket :=
  match findEntry b k with
  | some (Entry.bucket _) => Except.error DbErr.incompatibleValue
  | _ => Except.ok (delEntry b k)

/-- insert (write.go): create the path with getCreateBucket (the root is
created first when absent) and Put the pair at its end. -/
def insert (store : Store) (k v : ByteStr) (path : List ByteStr) : Except DbErr Store :=
  (updateAt (putKV k v) (store.getD []) path).map some

/-- delete (write.go): navigate with getCreateBucket (creating missing
segments, as the source does) and Delete the key at the end. -/
def delete (store : Store) (k : ByteStr) (path : List ByteStr) : Except DbErr Store :=
  (updateAt (delKV k) (store.getD []) path).map some

/-- Success projection of a write operation, for stating round-trips. -/
def okStore : Except DbErr Store → Option Store
  | Except.ok s => some s
  | Except.error _ => none

/-! ## read.go producers: valuesAt, keysAt, entriesAt, bucketsAt

Each producer resolves its path with getBucket inside a read transaction
and walks the cursor, pushing entries into the output buffer.  Every push
is a timeout-guarded channel send, driven here by an oracle `sendOk` on
the index of the push; a failed send returns a timeout error.  keysAt,
entriesAt and bucketsAt defer close(buffer), so their close count is 1 on
every exit path (Go runs deferred calls also while panicking); valuesAt
has no such defer, so its close count is 0 on every exit path. -/

/-- Result of one producer call: the reported error state. -/
inductive ProdRes where
  | ok
  | err (e : DbErr)
  | panicked
deriving DecidableEq

/-- Observable outcome of one producer call: the values pushed to the
buffer in order, how many times the buffer was closed, and the result. -/
structure ProdOut (α : Type) where
  pushed : List α
  closes : Nat
  res : ProdRes
deriving DecidableEq

/-- Cursor loop of keysAt: entries with a nil value (child buckets) are
skipped with continue; the key of each terminal entry is pushed. -/
def scanKeys (sendOk : Nat → Bool) : Bucket → Nat → List ByteStr × Option DbErr
  | [], _ => ([], none)
  | (_, Entry.bucket _) :: rest, i => scanKeys sendOk rest i
  | (k, Entry.value _) :: rest, i =>
    if sendOk i then
      let r := scanKeys sendOk rest (i + 1)
      (k :: r.1, r.2)
    else ([], some DbErr.sendTimeout)

/-- Cursor loop of entriesAt: child buckets are skipped; the key/value
pair of each terminal entry is pushed. -/
def scanEntries (sendOk : Nat → Bool) : Bucket → Nat → List (ByteStr × ByteStr) × Option DbErr
  | [], _ => ([], none)
  | (_, Entry.bucket _) :: rest, i => scanEntries sendOk rest i
  | (k, Entry.value v) :: rest, i =>
    if sendOk i then
      let r := scanEntries sendOk rest (i + 1)
      ((k, v) :: r.1, r.2)
    else ([], some DbErr.sendTimeout)

/-- Cursor loop of bucketsAt: terminal entries (non-nil value) are skipped
with continue; the key of each child bucket is pushed. -/
def scanBuckets (sendOk : Nat → Bool) : Bucket → Nat → List ByteStr × Option DbErr
  | [], _ => ([], none)
  | (_, Entry.value _) :: rest, i => scanBuckets sendOk rest i
  | (k, Entry.bucket _) :: rest, i =>
    if sendOk i then
      let r := scanBuckets sendOk rest (i + 1)
      (k :: r.1, r.2)
    else ([], some DbErr.sendTimeout)

/-- Cursor loop of valuesAt as written in the source: the key k of every
entry is pushed to the buffer, without any nil-value check, so child
bucket keys are pushed too and the values v are only collected into a
local slice that is never read again. -/
def scanValues (sendOk : Nat → Bool) : Bucket → Nat → List ByteStr × Option DbErr
  | [], _ => ([], none)
  | (k, _) :: rest, i =>
    if sendOk i then
      let r := scanValues sendOk rest (i + 1)
      (k :: r.1, r.2)
    else ([], some DbErr.sendTimeout)

/-- Shared body of a producer: resolve the bucket, then run the given
cursor loop; a nil bucket exits cleanly with nothing pushed. -/
def prodCore {α : Type} (scan : Bucket → Nat → List α × Option DbErr)
    (store : Store) (path : List ByteStr) (me : Bool) : List α × ProdRes :=
  match getBucket store path me with
  | Res.panicked => ([], ProdRes.panicked)
  | Res.err e => ([], ProdRes.err e)
  | Res.ok none => ([], ProdRes.ok)
  | Res.ok (some b) =>
    match scan b 0 with
    | (ps, none) => (ps, ProdRes.ok)
    | (ps, some e) => (ps, ProdRes.err e)

/-- keysAt (read.go): defer close(buffer), then scan terminal keys. -/
def keysAt (store : Store) (path : List ByteStr) (me : Bool) (sendOk : Nat → Bool) : ProdOut ByteStr :=
  ⟨(prodCore (scanKeys sendOk) store path me).1, 1, (prodCore (scanKeys sendOk) store path me).2⟩

/-- entriesAt (read.go): defer close(buffer), then scan terminal pairs. -/
def entriesAt (store : Store) (path : List ByteStr) (me : Bool) (sendOk : Nat → Bool) : ProdOut (ByteStr × ByteStr) :=
  ⟨(prodCore (scanEntries sendOk) store path me).1, 1, (prodCore (scanEntries sendOk) store path me).2⟩

/-- bucketsAt (read.go): defer close(buffer), then scan child keys. -/
def bucketsAt (store : Store) (path : List ByteStr) (me : Bool) (sendOk : Nat → Bool) : ProdOut ByteStr :=
  ⟨(prodCore (scanBuckets sendOk) store path me).1, 1, (prodCore (scanBuckets sendOk) store path me).2⟩

/-- valuesAt (read.go): unlike its three siblings it has no
defer close(buffer) at all, so the buffer is closed zero times on every
exit path, and its loop pushes every key unconditionally. -/
def valuesAt (store : Store) (path : List ByteStr) (me : Bool) (sendOk : Nat → Bool) : ProdOut ByteStr :=
  ⟨(prodCore (scanValues sendOk) store path me).1, 0, (prodCore (scanValues sendOk) store path me).2⟩

/-! ## channel.go stages: Filter, Convert, DoEach, CaptureBytes

Each stage loop is driven by a trace of events, one per iteration of the
outer select: context cancelled, input closed, receive timer fired, or a
value received.  Where a received value triggers a blocking send, the
event also carries how that send resolved. -/

/-- Error identities of the stage functions (the fmt wrapping around them
only adds caller context to the message). -/
inductive StageErr where
  | nilIn
  | nilOut
  | nilAllow
  | nilConvert
  | nilDo
  | nilSlice
  | ctxCancelled
  | recvTimeout
  | sendTimeout
  | sendCancelled
  | convertFailed
  | intConvFailed
  | float32ParseFailed
  | unsupportedType
deriving DecidableEq

/-- How a stage call ended: returned nil, returned an error, or its trace
ran out while the loop was still going. -/
inductive StageRes where
  | done
  | fail (e : StageErr)
  | running
deriving DecidableEq

/-- Observable outcome of a stage call: values sent downstream in order,
number of times the output channel was closed, and the result. -/
structure StageOut (T : Type) where
  pushed : List T
  closes : Nat
  res : StageRes
deriving DecidableEq

/-- One iteration of Filter's outer select; a received value carries
whether the inner send select completed before its timer. -/
inductive FilterEv (T : Type) where
  | cancelled
  | closed
  | timedOut
  | recv (v : T) (sendOk : Bool)

/-- Loop of Filter (channel.go): on a received value, evaluate allow and
forward it under an independent send timeout; a closed input returns nil. -/
def filterLoop {T : Type} (allow : T → Bool) : List (FilterEv T) → List T × StageRes
  | [] => ([], StageRes.running)
  | FilterEv.cancelled :: _ => ([], StageRes.fail StageErr.ctxCancelled)
  | FilterEv.timedOut :: _ => ([], StageRes.fail StageErr.recvTimeout)
  | FilterEv.closed :: _ => ([], StageRes.done)
  | FilterEv.recv v sOk :: rest =>
    if allow v then
      if sOk then
        let r := filterLoop allow rest
        (v :: r.1, r.2)
      else ([], StageRes.fail StageErr.sendTimeout)
    else filterLoop allow rest

/-- Nil-argument checks of Filter (channel.go), in source order, then the
loop.  The three Bool flags state which of in/out/allow is nil. -/
def FilterCore {T : Type} (inNil outNil allowNil : Bool) (allow : T → Bool)
    (evs : List (FilterEv T)) : List T × StageRes :=
  if inNil then ([], StageRes.fail StageErr.nilIn)
  else if outNil then ([], StageRes.fail StageErr.nilOut)
  else if allowNil then ([], StageRes.fail StageErr.nilAllow)
  else filterLoop allow evs

/-- Filter (channel.go): the deferred close of out is guarded by
out != nil, so out is closed exactly once on every exit path when present
and never when absent. -/
def Filter {T : Type} (inNil outNil allowNil : Bool) (allow : T → Bool)
    (evs : List (FilterEv T)) : StageOut T :=
  ⟨(FilterCore inNil outNil allowNil allow evs).1,
   if outNil then 0 else 1,
   (FilterCore inNil outNil allowNil allow evs).2⟩

/-- Trace of a run in which every receive yields the next input value,
every send completes, and the input channel is then closed normally. -/
def normalTrace {T : Type} (xs : List T) : List (FilterEv T) :=
  xs.map (fun v => FilterEv.recv v true) ++ [FilterEv.closed]

/-- How one call of Send (channel.go) resolved: delivered, context
cancelled first, or timer fired first. -/
inductive SendRes where
  | ok
  | cancelled
  | timedOut
deriving DecidableEq

/-- One iteration of Convert's outer select; a received value carries how
the subsequent Send call resolved. -/
inductive ConvEv (A : Type) where
  | cancelled
  | closed
  | timedOut
  | recv (v : A) (send : SendRes)

/-- Loop of Convert (channel.go): apply the transform (none models a
returned error, which aborts the stage) and forward via Send. -/
def convertLoop {A B : Type} (f : A → Option B) : List (ConvEv A) → List B × StageRes
  | [] => ([], StageRes.running)
  | ConvEv.cancelled :: _ => ([], StageRes.fail StageErr.ctxCancelled)
  | ConvEv.timedOut :: _ => ([], StageRes.fail StageErr.recvTimeout)
  | ConvEv.closed :: _ => ([], StageRes.done)
  | ConvEv.recv v s :: rest =>
    match f v with
    | none => ([], StageRes.fail StageErr.convertFailed)
    | some b =>
      match s with
      | SendRes.ok =>
        let r := convertLoop f rest
        (b :: r.1, r.2)
      | SendRes.cancelled => ([], StageRes.fail StageErr.sendCancelled)
      | SendRes.timedOut => ([], StageRes.fail StageErr.sendTimeout)

/-- Nil-argument checks of Convert (channel.go), in source order. -/
def ConvertCore {A B : Type} (inNil outNil convNil : Bool) (f : A → Option B)
    (evs : List (ConvEv A)) : List B × StageRes :=
  if inNil then ([], StageRes.fail StageErr.nilIn)
  else if outNil then ([], StageRes.fail StageErr.nilOut)
  else if convNil then ([], StageRes.fail StageErr.nilConvert)
  else convertLoop f evs

/-- Convert (channel.go): deferred close of out guarded by out != nil. -/
def Convert {A B : Type} (inNil outNil convNil : Bool) (f : A → Option B)
    (evs : List (ConvEv A)) : StageOut B :=
  ⟨(ConvertCore inNil outNil convNil f evs).1,
   if outNil then 0 else 1,
   (ConvertCore inNil outNil convNil f evs).2⟩

/-! ## DoEach and its goroutine admission loop -/

/-- One iteration of DoEach's outer select. -/
inductive DoEv (T : Type) where
  | cancelled
  | closed
  | timedOut
  | recv (v : T)

/-- Outcome of the goroutineSpawn loop for one received value. -/
inductive SpawnRes where
  | admitted (attempt : Nat)
  | spawnTimedOut (attempt : Nat)
  | running
deriving DecidableEq

/-- The goroutineSpawn loop of DoEach (channel.go), with explicit time: in
every iteration the source creates a fresh timer for the full timeout and
then runs a non-blocking select, so the timer case is ready only when the
gap between creating that timer and polling the select — pollDelay, the
cost of one iteration — already reaches the timeout; otherwise the default
branch calls eg.TryGo (the oracle tryGo, indexed by attempt) and, on
failure, loops with yet another fresh timer.  fuel bounds how many
attempts are examined; running means the loop was still spinning after
that many attempts. -/
def spawnLoop (timeout pollDelay : Nat) (tryGo : Nat → Bool) : Nat → Nat → SpawnRes
  | 0, _ => SpawnRes.running
  | fuel + 1, i =>
    if timeout ≤ pollDelay then SpawnRes.spawnTimedOut i
    else if tryGo i then SpawnRes.admitted i
    else spawnLoop timeout pollDelay tryGo fuel (i + 1)

/-- How one call of DoEach ended. -/
inductive DoExit where
  | normal
  | errNilIn
  | errNilDo
  | errNilOut
  | cancelled
  | recvTimeout
  | spawnTimedOut
  | stillRunning
deriving DecidableEq

/-- Loop of DoEach (channel.go): for each received value run the
goroutineSpawn loop; a closed input returns eg.Wait(), modelled as a
normal exit. -/
def doEachLoop {T : Type} (timeout pollDelay fuel : Nat) (tryGo : Nat → Bool) :
    List (DoEv T) → DoExit
  | [] => DoExit.stillRunning
  | DoEv.cancelled :: _ => DoExit.cancelled
  | DoEv.timedOut :: _ => DoExit.recvTimeout
  | DoEv.closed :: _ => DoExit.normal
  | DoEv.recv _ :: rest =>
    match spawnLoop timeout pollDelay tryGo fuel 0 with
    | SpawnRes.admitted _ => doEachLoop timeout pollDelay fuel tryGo rest
    | SpawnRes.spawnTimedOut _ => DoExit.spawnTimedOut
    | SpawnRes.running => DoExit.stillRunning

/-- Nil-argument checks of DoEach (channel.go), in source order
(in, do, out), then the loop. -/
def DoEachCore {T : Type} (inNil doNil outNil : Bool) (timeout pollDelay fuel : Nat)
    (tryGo : Nat → Bool) (evs : List (DoEv T)) : DoExit :=
  if inNil then DoExit.errNilIn
  else if doNil then DoExit.errNilDo
  else if outNil then DoExit.errNilOut
  else doEachLoop timeout pollDelay fuel tryGo evs

/-- DoEach (channel.go): deferred close of out guarded by out != nil; the
first component is the close count of out. -/
def DoEach {T : Type} (inNil doNil outNil : Bool) (timeout pollDelay fuel : Nat)
    (tryGo : Nat → Bool) (evs : List (DoEv T)) : Nat × DoExit :=
  (if outNil then 0 else 1, DoEachCore inNil doNil outNil timeout pollDelay fuel tryGo evs)

/-! ## CaptureBytes and its record decoding

strconv.Atoi and strconv.ParseFloat are Go standard-library collaborators;
they are modelled after their documented behaviour on decimal input: an
optional sign, digits (with an optional fraction and scientific exponent
for ParseFloat), rejecting anything else, and for ParseFloat rejecting
values whose magnitude exceeds the largest finite float of the requested
bit size (the range error).  Rounding of in-range values is not modelled;
no claim depends on it. -/

/-- Horner accumulation of decimal digit characters. -/
def digitsToNat : List Char → Nat → Nat
  | [], acc => acc
  | c :: cs, acc => digitsToNat cs (acc * 10 + (c.toNat - 48))

/-- Leading optional sign; true means negative. -/
def parseSign : List Char → Bool × List Char
  | '-' :: cs => (true, cs)
  | '+' :: cs => (false, cs)
  | cs => (false, cs)

/-- Longest digit prefix and the remainder. -/
def splitDigits (cs : List Char) : List Char × List Char :=
  (cs.takeWhile Char.isDigit, cs.dropWhile Char.isDigit)

/-- Model of strconv.Atoi on its documented decimal syntax (64-bit
overflow is not modelled; no claim depends on it). -/
def atoi (s : String) : Option Int :=
  let sg := parseSign s.toList
  let ds := splitDigits sg.2
  if ds.1 = [] ∨ ds.2 ≠ [] then none
  else some (if sg.1 then -(digitsToNat ds.1 0 : Int) else (digitsToNat ds.1 0 : Int))

/-- Exponent part after the e/E marker: optional sign and digits. -/
def parseExpTail (cs : List Char) : Option Int :=
  let sg := parseSign cs
  let ds := splitDigits sg.2
  if ds.1 = [] ∨ ds.2 ≠ [] then none
  else some (if sg.1 then -(digitsToNat ds.1 0 : Int) else (digitsToNat ds.1 0 : Int))

/-- Optional scientific exponent; an absent exponent is 0. -/
def parseExp : List Char → Option Int
  | [] => some 0
  | 'e' :: cs => parseExpTail cs
  | 'E' :: cs => parseExpTail cs
  | _ => none

/-- Mantissa of a decimal literal: its digit value, the number of
fractional digits, and the remaining characters. -/
def parseDecimal (cs : List Char) : Option (Nat × Nat × List Char) :=
  let ip := splitDigits cs
  match ip.2 with
  | '.' :: r2 =>
    let fp := splitDigits r2
    if ip.1 = [] ∧ fp.1 = [] then none
    else some (digitsToNat (ip.1 ++ fp.1) 0, fp.1.length, fp.2)
  | _ => if ip.1 = [] then none else some (digitsToNat ip.1 0, 0, ip.2)

/-- Whether a magnitude m with decimal exponent ex exceeds the largest
finite float of the given bit size; the thresholds are the exact integers
(2^24 - 1) * 2^104 (float32) and (2^53 - 1) * 2^971 (float64). -/
def exceedsFloatRange (bitSize m : Nat) (ex : Int) : Bool :=
  let bound : Nat := if bitSize = 32 then (2 ^ 24 - 1) * 2 ^ 104 else (2 ^ 53 - 1) * 2 ^ 971
  if 0 ≤ ex then bound < m * 10 ^ ex.toNat else bound * 10 ^ (-ex).toNat < m

/-- Model of strconv.ParseFloat on decimal and scientific literals: the
exactly represented rational, or none on a syntax or range error for the
requested bit size. -/
def parseFloat (s : String) (bitSize : Nat) : Option ℚ :=
  let sg := parseSign s.toList
  match parseDecimal sg.2 with
  | none => none
  | some (m, fl, rest) =>
    match parseExp rest with
    | none => none
    | some e =>
      let ex : Int := e - fl
      if exceedsFloatRange bitSize m ex then none
      else
        let mag : ℚ := if 0 ≤ ex then (m : ℚ) * (10 : ℚ) ^ ex.toNat else (m : ℚ) / (10 : ℚ) ^ (-ex).toNat
        some (if sg.1 then -mag else mag)

/-- The static type of the destination slice of CaptureBytes. -/
inductive Dest where
  | strings
  | byteSlices
  | ints
  | floats32
  | floats64
  | unsupported
deriving DecidableEq

/-- A decoded record appended to the destination slice. -/
inductive CapItem where
  | str (s : String)
  | raw (s : String)
  | int (i : Int)
  | f32 (q : ℚ)
  | f64 (q : ℚ)
deriving DecidableEq

/-- The type switch of CaptureBytes (channel.go) on one received record.
Both float branches call strconv.ParseFloat with bit size 32 in the
source, including the one for a *[]float64 destination. -/
def captureStep (d : Dest) (v : String) : Except StageErr CapItem :=
  match d with
  | Dest.strings => Except.ok (CapItem.str v)
  | Dest.byteSlices => Except.ok (CapItem.raw v)
  | Dest.ints =>
    match atoi v with
    | some i => Except.ok (CapItem.int i)
    | none => Except.error StageErr.intConvFailed
  | Dest.floats32 =>
    match parseFloat v 32 with
    | some q => Except.ok (CapItem.f32 q)
    | none => Except.error StageErr.float32ParseFailed
  | Dest.floats64 =>
    match parseFloat v 32 with
    | some q => Except.ok (CapItem.f64 q)
    | none => Except.error StageErr.float32ParseFailed
  | Dest.unsupported => Except.error StageErr.unsupportedType

/-- One iteration of CaptureBytes's select. -/
inductive CapEv where
  | cancelled
  | closed
  | timedOut
  | recv (v : String)

/-- Observable outcome of CaptureBytes: the items appended, whether the
caller-supplied mutex was still locked when the function returned, and
the result. -/
structure CapOut where
  items : List CapItem
  mutexHeld : Bool
  res : StageRes
deriving DecidableEq

/-- Loop of CaptureBytes (channel.go): on a received record the mutex (if
present) is locked before the type switch; the switch's decode-failure and
unsupported-type branches return directly, so in those branches the mutex
is still held at return; only the success path reaches the unlock after
the switch. -/
def captureLoop (d : Dest) (mutPresent : Bool) : List CapEv → CapOut
  | [] => ⟨[], false, StageRes.running⟩
  | CapEv.cancelled :: _ => ⟨[], false, StageRes.fail StageErr.ctxCancelled⟩
  | CapEv.timedOut :: _ => ⟨[], false, StageRes.fail StageErr.recvTimeout⟩
  | CapEv.closed :: _ => ⟨[], false, StageRes.done⟩
  | CapEv.recv v :: rest =>
    match captureStep d v with
    | Except.error e => ⟨[], mutPresent, StageRes.fail e⟩
    | Except.ok item =>
      let r := captureLoop d mutPresent rest
      ⟨item :: r.items, r.mutexHeld, r.res⟩

/-- CaptureBytes (channel.go): nil checks of buffer then slice, then the
receive loop. -/
def CaptureBytes (bufNil sliceNil : Bool) (d : Dest) (mutPresent : Bool)
    (evs : List CapEv) : CapOut :=
  if bufNil then ⟨[], false, StageRes.fail StageErr.nilIn⟩
  else if sliceNil then ⟨[], false, StageRes.fail StageErr.nilSlice⟩
  else captureLoop d mutPresent evs

/-! ## The legacy buffer.go Filter -/

/-- Outcome of the buffer.go Filter: either the function returned a value
or it panicked while returning. -/
inductive FilterBufRes (T : Type) where
  | panicked
  | ret (o : StageOut T)
deriving DecidableEq

/-- Filter as written in buffer.go: close(out) is deferred before the nil
checks and without a nil guard.  When out is nil every return path — the
nil-argument returns included — runs close on a nil channel, which panics;
the prepared return value is lost to the panic.  (With a nil out no value
can ever be delivered downstream either, since a send on a nil channel
blocks until the send timer fires.) -/
def FilterBuf {T : Type} (inNil outNil allowNil : Bool) (allow : T → Bool)
    (evs : List (FilterEv T)) : FilterBufRes T :=
  if outNil then FilterBufRes.panicked
  else
    FilterBufRes.ret
      ⟨(FilterCore inNil outNil allowNil allow evs).1, 1,
       (FilterCore inNil outNil allowNil allow evs).2⟩

/-! ## Concrete records and stores used in the evaluations -/

/-- A record that is a valid 64-bit float but exceeds the 32-bit range. -/
def recFloat : String := "1e39"

/-- A record that is not a decimal integer. -/
def recBadInt : String := "abc"

/-- A record that is a decimal integer. -/
def recGoodInt : String := "7"

/-- A store whose bucket at path [[97]] has one terminal entry
([107] with value [118]) and one child bucket ([122]). -/
def mixedBucketStore : Store :=
  some [([97], Entry.bucket [([107], Entry.value [118]), ([122], Entry.bucket [])])]

/-! ## Helper lemmas -/

/-- On the normal trace, Filter's loop emits exactly the allowed values in
order and ends with a nil return. -/
theorem filterLoop_normalTrace {T : Type} (allow : T → Bool) (xs : List T) :
    filterLoop allow (normalTrace xs) = (xs.filter allow, StageRes.done) := by
  induction xs with
  | nil => rfl
  | cons x xs ih =>
    cases h : allow x <;>
      simp [normalTrace, filterLoop, h, List.filter_cons] at * <;>
      simp [ih]

/-- If navigation with mustExist false ends at a nil bucket, then with
mustExist true the same navigation fails with an Access error naming a
segment of the path. -/
theorem getBucketLoop_missing {full : List ByteStr} :
    ∀ {rest : List ByteStr} {b : Bucket}, getBucketLoop false full b rest = Res.ok none →
      ∃ seg, seg ∈ rest ∧ getBucketLoop true full b rest = Res.err (DbErr.access seg full) := by
  intro rest
  induction rest with
  | nil => intro b h; simp [getBucketLoop] at h
  | cons p ps ih =>
    intro b h
    cases hsub : subBucket b p with
    | some b' =>
      simp only [getBucketLoop, hsub] at h ⊢
      obtain ⟨seg, hm, he⟩ := ih h
      exact ⟨seg, List.mem_cons_of_mem p hm, he⟩
    | none =>
      refine ⟨p, List.mem_cons_self p ps, ?_⟩
      simp [getBucketLoop, hsub]

/-- Lift of the previous lemma to getBucket, for a non-empty path. -/
theorem getBucket_missing {store : Store} {path : List ByteStr}
    (hne : path ≠ []) (h : getBucket store path false = Res.ok none) :
    ∃ seg, seg ∈ path ∧ getBucket store path true = Res.err (DbErr.access seg path) := by
  cases store with
  | none =>
    cases path with
    | nil => exact absurd rfl hne
    | cons p ps => exact ⟨p, List.mem_cons_self p ps, rfl⟩
  | some root => exact getBucketLoop_missing h

/-- The loop of spawnLoop with a saturated pool: while every poll happens
before its own freshly created timer can fire, every attempt falls into
the default branch and the loop keeps spinning, however many attempts are
examined. -/
theorem spawnLoop_saturated (timeout pd : Nat) (tg : Nat → Bool)
    (h1 : pd < timeout) (h2 : ∀ j, tg j = false) :
    ∀ fuel i, spawnLoop timeout pd tg fuel i = SpawnRes.running := by
  intro fuel
  induction fuel with
  | zero => intro i; rfl
  | succ n ih => intro i; simp [spawnLoop, Nat.not_le.mpr h1, h2 i, ih]

/-! ## Claim theorems -/

/-- C1: for every input sequence consumed by Filter with predicate allow,
the values emitted on the output queue are exactly the subsequence of the
input satisfying allow, in input order, and Filter returns nil when the
input queue is closed normally. -/
theorem Filter_emits_filtered_subsequence {T : Type} (allow : T → Bool) (xs : List T) :
    Filter false false false allow (normalTrace xs) = ⟨xs.filter allow, 1, StageRes.done⟩ := by
  simp [Filter, FilterCore, filterLoop_normalTrace]

/-- C2 (code bug evidence): on every input and every exit path, Filter,
Convert and DoEach close their non-nil output queue exactly once, and so
do keysAt, entriesAt and bucketsAt — but valuesAt closes its output queue
zero times, because it alone has no deferred close. -/
theorem producer_close_counts :
    (∀ (store : Store) (path : List ByteStr) (me : Bool) (sendOk : Nat → Bool),
        (valuesAt store path me sendOk).closes = 0
        ∧ (keysAt store path me sendOk).closes = 1
        ∧ (entriesAt store path me sendOk).closes = 1
        ∧ (bucketsAt store path me sendOk).closes = 1)
    ∧ (∀ (inNil allowNil : Bool) (allow : Nat → Bool) (evs : List (FilterEv Nat)),
        (Filter inNil false allowNil allow evs).closes = 1)
    ∧ (∀ (inNil convNil : Bool) (f : Nat → Option Nat) (evs : List (ConvEv Nat)),
        (Convert inNil false convNil f evs).closes = 1)
    ∧ (∀ (inNil doNil : Bool) (t pd fuel : Nat) (tg : Nat → Bool) (evs : List (DoEv Nat)),
        (DoEach inNil doNil false t pd fuel tg evs).1 = 1) :=
  ⟨fun _ _ _ _ => ⟨rfl, rfl, rfl, rfl⟩,
   fun _ _ _ _ => rfl,
   fun _ _ _ _ => rfl,
   fun _ _ _ _ _ _ _ => rfl⟩

/-- C3 (code bug evidence): over a bucket holding the terminal entry [107]
(value [118]) and the child bucket [122], valuesAt pushes the keys of both
entries — it neither skips the child collection nor pushes values — while
keysAt and entriesAt push only the terminal entry and bucketsAt only the
child key. -/
theorem valuesAt_pushes_child_bucket_keys :
    valuesAt mixedBucketStore [[97]] true (fun _ => true) = ⟨[[107], [122]], 0, ProdRes.ok⟩
    ∧ keysAt mixedBucketStore [[97]] true (fun _ => true) = ⟨[[107]], 1, ProdRes.ok⟩
    ∧ entriesAt mixedBucketStore [[97]] true (fun _ => true) = ⟨[([107], [118])], 1, ProdRes.ok⟩
    ∧ bucketsAt mixedBucketStore [[97]] true (fun _ => true) = ⟨[[122]], 1, ProdRes.ok⟩ := by
  refine ⟨?_, ?_, ?_, ?_⟩ <;> decide

/-- C4: for every producer call over a path with a missing segment, the
call with mustExist false returns nil having pushed zero entries, and the
call with mustExist true fails with an Access error naming the missing
segment and the full path. -/
theorem producers_on_missing_segment (store : Store) (path : List ByteStr) (sendOk : Nat → Bool)
    (hne : path ≠ []) (h : getBucket store path false = Res.ok none) :
    (valuesAt store path false sendOk = ⟨[], 0, ProdRes.ok⟩
      ∧ keysAt store path false sendOk = ⟨[], 1, ProdRes.ok⟩
      ∧ entriesAt store path false sendOk = ⟨[], 1, ProdRes.ok⟩
      ∧ bucketsAt store path false sendOk = ⟨[], 1, ProdRes.ok⟩)
    ∧ ∃ seg, seg ∈ path
      ∧ valuesAt store path true sendOk = ⟨[], 0, ProdRes.err (DbErr.access seg path)⟩
      ∧ keysAt store path true sendOk = ⟨[], 1, ProdRes.err (DbErr.access seg path)⟩
      ∧ entriesAt store path true sendOk = ⟨[], 1, ProdRes.err (DbErr.access seg path)⟩
      ∧ bucketsAt store path true sendOk = ⟨[], 1, ProdRes.err (DbErr.access seg path)⟩ := by
  obtain ⟨seg, hm, he⟩ := getBucket_missing hne h
  refine ⟨⟨?_, ?_, ?_, ?_⟩, seg, hm, ?_, ?_, ?_, ?_⟩ <;>
    simp [valuesAt, keysAt, entriesAt, bucketsAt, prodCore, h, he]

/-- C4 witness: a store with no root bucket and the one-segment path
[[97]] satisfies the hypotheses, and the conclusions hold there. -/
theorem producers_on_missing_segment_witness :
    (([[97]] : List ByteStr) ≠ [] ∧ getBucket none [[97]] false = Res.ok none)
    ∧ ((valuesAt none [[97]] false (fun _ => true) = ⟨[], 0, ProdRes.ok⟩
        ∧ keysAt none [[97]] false (fun _ => true) = ⟨[], 1, ProdRes.ok⟩
        ∧ entriesAt none [[97]] false (fun _ => true) = ⟨[], 1, ProdRes.ok⟩
        ∧ bucketsAt none [[97]] false (fun _ => true) = ⟨[], 1, ProdRes.ok⟩)
      ∧ ∃ seg, seg ∈ ([[97]] : List ByteStr)
        ∧ valuesAt none [[97]] true (fun _ => true) = ⟨[], 0, ProdRes.err (DbErr.access seg [[97]])⟩
        ∧ keysAt none [[97]] true (fun _ => true) = ⟨[], 1, ProdRes.err (DbErr.access seg [[97]])⟩
        ∧ entriesAt none [[97]] true (fun _ => true) = ⟨[], 1, ProdRes.err (DbErr.access seg [[97]])⟩
        ∧ bucketsAt none [[97]] true (fun _ => true) = ⟨[], 1, ProdRes.err (DbErr.access seg [[97]])⟩) :=
  ⟨⟨by decide, rfl⟩, producers_on_missing_segment none [[97]] (fun _ => true) (by decide) rfl⟩

/-- C5: inserting key [107] with value [118] under path [[97], [98]] into
a fresh store and reading the key back returns [118]; deleting the key and
reading again with mustExist false returns a nil value and no error. -/
theorem insert_get_delete_roundtrip :
    ((okStore (insert none [107] [118] [[97], [98]])).map
        (fun s1 => getValue s1 [107] [[97], [98]] true) = some (Res.ok (some [118])))
    ∧ (((okStore (insert none [107] [118] [[97], [98]])).bind
        (fun s1 => okStore (delete s1 [107] [[97], [98]]))).map
        (fun s2 => getValue s2 [107] [[97], [98]] false) = some (Res.ok none)) :=
  ⟨rfl, rfl⟩

set_option exponentiation.threshold 1100 in
set_option maxRecDepth 8000 in
/-- C6 (code bug evidence): with a *[]float64 destination, CaptureBytes
fails on the record 1e39 because the source parses it with bit size 32;
the record has no 32-bit representation but is a valid 64-bit float, so a
64-bit parse — what the destination type calls for — would succeed. -/
theorem captureBytes_float64_uses_32bit_range :
    CaptureBytes false false Dest.floats64 false [CapEv.recv recFloat]
        = ⟨[], false, StageRes.fail StageErr.float32ParseFailed⟩
    ∧ parseFloat recFloat 32 = none
    ∧ (parseFloat recFloat 64).isSome = true := by
  refine ⟨?_, ?_, ?_⟩ <;> decide

/-- C7 (code bug evidence): with the worker pool saturated (every TryGo
attempt failing) and each admission attempt polling faster than the
timeout, DoEach never returns a Timeout error no matter how many attempts
are examined — even after the configured timeout has long elapsed since
admission attempts began (timeout ≤ fuel * pollDelay) — because every
attempt restarts a fresh timer. -/
theorem DoEach_admission_never_times_out (timeout pd fuel : Nat) (tg : Nat → Bool) (v : Nat)
    (h1 : pd < timeout) (h2 : ∀ j, tg j = false) (h3 : timeout ≤ fuel * pd) :
    DoEach false false false timeout pd fuel tg [DoEv.recv v] = (1, DoExit.stillRunning) := by
  have hs := spawnLoop_saturated timeout pd tg h1 h2 fuel 0
  simp [DoEach, DoEachCore, doEachLoop, hs]

/-- C7 witness: timeout 2, poll delay 1 and 5 attempts (elapsed 5 ≥ 2)
satisfy the hypotheses, and the stage is still spinning. -/
theorem DoEach_admission_never_times_out_witness :
    (1 < 2 ∧ (∀ j : Nat, (fun _ : Nat => false) j = false) ∧ 2 ≤ 5 * 1)
    ∧ DoEach false false false 2 1 5 (fun _ => false) [DoEv.recv 0] = (1, DoExit.stillRunning) :=
  ⟨⟨by decide, fun _ => rfl, by decide⟩,
   DoEach_admission_never_times_out 2 1 5 (fun _ => false) 0 (by decide) (fun _ => rfl) (by decide)⟩

/-- C8 (code bug evidence): the buffer.go Filter, whose close(out) is
deferred unconditionally, panics on a call with a nil output channel
instead of returning the nil-output error; the channel.go Filter guards
the defer and returns the descriptive error without closing or panicking. -/
theorem FilterBuf_nil_out_panics :
    FilterBuf false true false (fun _ : Nat => true) [] = FilterBufRes.panicked
    ∧ Filter false true false (fun _ : Nat => true) [] = ⟨[], 0, StageRes.fail StageErr.nilOut⟩ :=
  ⟨rfl, rfl⟩

/-- C9: with no root bucket and mustExist true, getBucket on a non-empty
path returns an Access error built from path[0], but on the empty path the
index path[0] is out of bounds and the call panics, so read operations
such as getValue return no Access error there. -/
theorem getBucket_empty_path_no_access_error :
    getBucket none [] true = Res.panicked
    ∧ (∀ k : ByteStr, getValue none k [] true = Res.panicked)
    ∧ (∀ (p : ByteStr) (ps : List ByteStr),
        getBucket none (p :: ps) true = Res.err (DbErr.access p (p :: ps))) :=
  ⟨rfl, fun _ => rfl, fun _ _ => rfl⟩

/-- C10 (code bug evidence): with a mutex supplied, CaptureBytes returns
from the integer-decode-failure branch and from the unsupported-type
branch with the mutex still locked; only the success path unlocks it
before the next iteration and the normal return. -/
theorem captureBytes_error_paths_hold_mutex :
    CaptureBytes false false Dest.ints true [CapEv.recv recBadInt]
        = ⟨[], true, StageRes.fail StageErr.intConvFailed⟩
    ∧ CaptureBytes false false Dest.unsupported true [CapEv.recv recGoodInt]
        = ⟨[], true, StageRes.fail StageErr.unsupportedType⟩
    ∧ CaptureBytes false false Dest.ints true [CapEv.recv recGoodInt, CapEv.closed]
        = ⟨[CapItem.int 7], false, StageRes.done⟩ := by
  refine ⟨?_, ?_, ?_⟩ <;> decide

end QB
